import Mathlib

/-!
Verification development for the no1-service-tracker repository
(src/app.py, src/app_v2.py, src/app_v3.py).

The reporting pipeline of the three Streamlit variants is shallowly
embedded below: timestamps are UTC epoch seconds (ℤ), calendar dates are
explicit (year, month, day) records, money values are exact rationals ℚ
(the Python code computes with IEEE doubles; the embedding keeps the same
formulas with exact arithmetic), and code that can raise a runtime
exception (subscripting a missing join) returns Option.
-/

namespace ServiceTracker

/-! ## Calendar and clock arithmetic

Days are counted from the Unix epoch (day 0 = 1970-01-01, a Thursday).
Lean's `/` and `%` on ℤ are Euclidean, which coincides with floor
division for the positive divisors used here, matching Python's `//`.
-/

/-- Civil date from a day number (days since 1970-01-01), standard
era-based algorithm. Returns (year, month, day). -/
def civilFromDays (z0 : ℤ) : ℤ × ℤ × ℤ :=
  let z := z0 + 719468
  let era := z / 146097
  let doe := z - era * 146097
  let yoe := (doe - doe / 1460 + doe / 36524 - doe / 146096) / 365
  let y := yoe + era * 400
  let doy := doe - (365 * yoe + yoe / 4 - yoe / 100)
  let mp := (5 * doy + 2) / 153
  let d := doy - (153 * mp + 2) / 5 + 1
  let m := mp + (if mp < 10 then 3 else -9)
  (y + (if m ≤ 2 then 1 else 0), m, d)

/-- Day number (days since 1970-01-01) of a civil date. -/
def daysFromCivil (y0 m d : ℤ) : ℤ :=
  let y := y0 - (if m ≤ 2 then 1 else 0)
  let era := y / 400
  let yoe := y - era * 400
  let doy := (153 * (m + (if 2 < m then -3 else 9)) + 2) / 5 + d - 1
  let doe := yoe * 365 + yoe / 4 - yoe / 100 + doy
  era * 146097 + doe - 719468

/-- Python `date.weekday()`: Monday = 0 … Sunday = 6.
Day 0 (1970-01-01) was a Thursday, i.e. weekday 3. -/
def weekdayMon (d : ℤ) : ℤ := (d + 3) % 7

/-- Day-of-week with Sunday = 0 (1970-01-01 has index 4). -/
def dowSun (d : ℤ) : ℤ := (d + 4) % 7

/-- First day with Sunday index on or after the given day number. -/
def firstSundayOnOrAfter (d : ℤ) : ℤ := d + (7 - dowSun d) % 7

/-- UTC instant at which US/Central DST begins in year `y` under the
post-2007 rule implemented by the tz database the code relies on:
second Sunday of March, 02:00 CST = 08:00 UTC. -/
def dstStartUtc (y : ℤ) : ℤ :=
  firstSundayOnOrAfter (daysFromCivil y 3 8) * 86400 + 8 * 3600

/-- UTC instant at which US/Central DST ends in year `y`:
first Sunday of November, 02:00 CDT = 07:00 UTC. -/
def dstEndUtc (y : ℤ) : ℤ :=
  firstSundayOnOrAfter (daysFromCivil y 11 1) * 86400 + 7 * 3600

/-- UTC offset (in seconds) of the fixed civil zone US/Central at a UTC
instant, as produced by `astimezone(central_tz)` in the code:
-5 h during DST, -6 h otherwise. -/
def centralOffset (t : ℤ) : ℤ :=
  let y := (civilFromDays (t / 86400)).1
  if dstStartUtc y ≤ t ∧ t < dstEndUtc y then -18000 else -21600

/-- Zero-padded two-digit rendering of a number, as `%m %d %I %M %S`. -/
def pad2 (n : ℕ) : String := if n < 10 then "0" ++ toString n else toString n

/-- Zero-padded four-digit rendering of a year, as `%Y`. -/
def pad4 (n : ℕ) : String :=
  if n < 10 then "000" ++ toString n
  else if n < 100 then "00" ++ toString n
  else if n < 1000 then "0" ++ toString n
  else toString n

/-- Embedding of
`pd.to_datetime(served_at).tz_convert("UTC").astimezone(central_tz).strftime("%Y-%m-%d %I:%M:%S %p")`
(src/app.py line 80): the stored UTC instant converted to US/Central and
rendered with a 12-hour clock and AM/PM meridiem. -/
def strftimeCentral (t : ℤ) : String :=
  let lt := t + centralOffset t
  let days := lt / 86400
  let secs := (lt % 86400).toNat
  let ymd := civilFromDays days
  let h := secs / 3600
  let mi := secs % 3600 / 60
  let s := secs % 60
  let h12 := if h % 12 = 0 then 12 else h % 12
  pad4 ymd.1.toNat ++ "-" ++ pad2 ymd.2.1.toNat ++ "-" ++ pad2 ymd.2.2.toNat ++
    " " ++ pad2 h12 ++ ":" ++ pad2 mi ++ ":" ++ pad2 s ++
    " " ++ (if h < 12 then "AM" else "PM")

/-! ## Data model

`service_logs` rows as returned by the store, joined with the related
`users` (and, in the legacy catalog schema of app_v2/app_v3, `services`)
records. A join against a deleted record yields `none`; subscripting it
in Python raises, so the row computations below return `Option`.
-/

/-- Joined `users` record. src/app.py selects
`users(username, service_percentage)`; app_v2/app_v3 select only
`users(username)` and never read the account's percentage. -/
structure UserJoin where
  username : String
  service_percentage : ℚ
deriving DecidableEq, Repr

/-- Joined `services` record of the legacy catalog schema
(`services(name, price_cents, is_active)`). -/
structure ServiceJoin where
  name : String
  price_cents : ℤ
  is_active : Bool
deriving DecidableEq, Repr

/-- The `Date & Time` cell of a flat-view row. app.py renders a Central
12-hour string; app_v2/app_v3 store the instant parsed by
`pd.to_datetime` with no conversion or formatting. -/
inductive TimeDisplay where
  | formatted : String → TimeDisplay
  | instant : ℤ → TimeDisplay
deriving DecidableEq, Repr

/-- Raw `service_logs` row of the current inline-amount schema read by
src/app.py: `qty, tip_cents, amount_cents, served_at, payment_type,
users(...)`. `amount_cents` and `tip_cents` are ℚ because the app.py
entry form inserts raw `float(...)` values into those columns. -/
structure RawV1 where
  user_id : String
  qty : ℕ
  tip_cents : ℚ
  amount_cents : ℚ
  served_at : ℤ
  payment_type : String
  users : Option UserJoin
deriving DecidableEq, Repr

/-- Raw `service_logs` row of the legacy catalog schema read by
src/app_v2.py and src/app_v3.py:
`qty, tip_cents, served_at, users(username), services(...)`. -/
structure RawV2 where
  user_id : String
  qty : ℕ
  tip_cents : ℤ
  served_at : ℤ
  users : Option UserJoin
  services : Option ServiceJoin
deriving DecidableEq, Repr

/-- Flat-view row built by src/app.py `fetch_service_logs`
(lines 73-89). -/
structure ComputedRowV1 where
  dateTime : TimeDisplay
  user : String
  qty : ℕ
  userPercent : ℚ
  serviceAmount : ℚ
  totalServiceAmount : ℚ
  tip : ℚ
  paymentType : String
  total : ℚ
deriving DecidableEq, Repr

/-- Flat-view row built by the app_v2 Reports page (lines 230-243) and
the identical app_v3 Reports tab (lines 447-460). -/
structure ComputedRowV2 where
  dateTime : TimeDisplay
  user : String
  service : String
  inactive : Bool
  qty : ℕ
  serviceAmount : ℚ
  tip : ℚ
  total : ℚ
deriving DecidableEq, Repr

/-! ## Row computation (EarningsCalculator) -/

/-- One iteration of the src/app.py `fetch_service_logs` row loop
(lines 74-89):
`amount = amount_cents * qty`, `service_earning = amount * (pct / 100)`,
`Total = service_earning + tip_cents`. Subscripting a missing `users`
join raises in Python, hence `none`. -/
def computeRowV1 (r : RawV1) : Option ComputedRowV1 :=
  match r.users with
  | none => none
  | some u =>
    let amount := r.amount_cents * r.qty
    let service_earning := amount * (u.service_percentage / 100)
    some
      { dateTime := .formatted (strftimeCentral r.served_at)
        user := u.username
        qty := r.qty
        userPercent := u.service_percentage
        serviceAmount := r.amount_cents
        totalServiceAmount := amount
        tip := r.tip_cents
        paymentType := r.payment_type
        total := service_earning + r.tip_cents }

/-- One iteration of the app_v2/app_v3 Reports row loop
(app_v2.py lines 231-243, app_v3.py lines 448-460):
`price = price_cents / 100.0`, `amount = price * qty`,
`Total = amount + tip_cents / 100.0`; the row carries
`Inactive = not services.is_active`. No commission percentage is read. -/
def computeRowV2 (r : RawV2) : Option ComputedRowV2 :=
  match r.users, r.services with
  | some u, some s =>
    let price : ℚ := (s.price_cents : ℚ) / 100
    let amount := price * r.qty
    some
      { dateTime := .instant r.served_at
        user := u.username
        service := s.name
        inactive := !s.is_active
        qty := r.qty
        serviceAmount := amount
        tip := (r.tip_cents : ℚ) / 100
        total := amount + (r.tip_cents : ℚ) / 100 }
  | _, _ => none

/-- The whole `for r in data` loop of `fetch_service_logs`: an exception
on any row aborts the entire call. -/
def computeRowsV1 : List RawV1 → Option (List ComputedRowV1)
  | [] => some []
  | r :: rest =>
    match computeRowV1 r, computeRowsV1 rest with
    | some row, some rows => some (row :: rows)
    | _, _ => none

/-- The app_v2/app_v3 report row loop over the whole result set. -/
def computeRowsV2 : List RawV2 → Option (List ComputedRowV2)
  | [] => some []
  | r :: rest =>
    match computeRowV2 r, computeRowsV2 rest with
    | some row, some rows => some (row :: rows)
    | _, _ => none

/-! ## LedgerQuery (src/app.py lines 54-71) -/

/-- The `served_at` range filter: `.gte("served_at", start)` when a
start is given and `.lte("served_at", end)` when an end is given
(src/app.py lines 58-61). -/
def matchesRange (startUtc endUtc : Option ℤ) (t : ℤ) : Bool :=
  (match startUtc with | some s => decide (s ≤ t) | none => true) &&
  (match endUtc with | some e => decide (t ≤ e) | none => true)

/-- Full row filter of `fetch_service_logs`: time range plus the
optional `.eq("user_id", uid)` filter (the caller resolves a username
filter to the account id per lines 63-67). -/
def matchesQueryV1 (startUtc endUtc : Option ℤ) (uid : Option String)
    (r : RawV1) : Bool :=
  matchesRange startUtc endUtc r.served_at &&
  (match uid with | some i => decide (r.user_id = i) | none => true)

/-- Insertion step of the `order("served_at")` ascending sort. -/
def insertByTime (r : RawV1) : List RawV1 → List RawV1
  | [] => [r]
  | x :: xs =>
    if r.served_at ≤ x.served_at then r :: x :: xs
    else x :: insertByTime r xs

/-- `order("served_at")`: the store returns matching rows sorted by
ascending service timestamp. -/
def orderByServedAt : List RawV1 → List RawV1
  | [] => []
  | x :: xs => insertByTime x (orderByServedAt xs)

/-- src/app.py `fetch_service_logs` (lines 39-91) over a ledger of raw
rows: filter, sort ascending by `served_at`, return `[]` when nothing
matches (lines 70-71), otherwise run the row loop. -/
def fetch_service_logs (ledger : List RawV1) (startUtc endUtc : Option ℤ)
    (uid : Option String) : Option (List ComputedRowV1) :=
  let data := orderByServedAt (ledger.filter (matchesQueryV1 startUtc endUtc uid))
  if data.isEmpty then some [] else computeRowsV1 data

/-! ## ReportAggregator (src/app.py lines 401-441) -/

/-- Sum of the `Total` column over a list of flat-view rows. -/
def sumTotal (l : List ComputedRowV1) : ℚ := (l.map (fun r => r.total)).sum

/-- Sum of the `Tip` column. -/
def sumTip (l : List ComputedRowV1) : ℚ := (l.map (fun r => r.tip)).sum

/-- Sum of the per-unit `Service Amount` column. -/
def sumServiceAmount (l : List ComputedRowV1) : ℚ :=
  (l.map (fun r => r.serviceAmount)).sum

/-- Sum of the `Total Service Amount` column. -/
def sumTotalServiceAmount (l : List ComputedRowV1) : ℚ :=
  (l.map (fun r => r.totalServiceAmount)).sum

/-- The rows of a `groupby(["User", "User Percent"])` group. -/
def groupUserPct (rows : List ComputedRowV1) (u : String) (p : ℚ) :
    List ComputedRowV1 :=
  rows.filter (fun r => decide (r.user = u ∧ r.userPercent = p))

/-- The rows of a `groupby(["User", "Payment Type", "User Percent"])`
group, as used for the `Totals per User & Payment Type` table. -/
def groupUserPayPct (rows : List ComputedRowV1) (u pt : String) (p : ℚ) :
    List ComputedRowV1 :=
  rows.filter (fun r => decide (r.user = u ∧ r.paymentType = pt ∧ r.userPercent = p))

/-- `Total with Percent + tip` cell of the `Totals per User & Payment
Type` summary (src/app.py lines 413-417): the `Total` column is summed
row-wise within the group. -/
def userPayTotalV1 (rows : List ComputedRowV1) (u pt : String) (p : ℚ) : ℚ :=
  sumTotal (groupUserPayPct rows u pt p)

/-- `Total with Percent + Tip` cell of the `Overall Totals per User`
summary (src/app.py lines 419-430): the percentage is applied to the
group sum of the per-unit `Service Amount` column,
`total_service * (pct / 100) + total_tip`. -/
def overallUserTotalV1 (rows : List ComputedRowV1) (u : String) (p : ℚ) : ℚ :=
  sumServiceAmount (groupUserPct rows u p) * (p / 100) +
    sumTip (groupUserPct rows u p)

/-- The Reports tab branch on the fetched rows (src/app.py
lines 401-406): an empty result renders the `No data for selection`
notice, anything else renders the table. -/
inductive ReportView where
  | noData : ReportView
  | table : List ComputedRowV1 → ReportView
deriving DecidableEq, Repr

/-- `if not rows: st.info("No data for selection") else: ...` -/
def renderReportV1 (rows : List ComputedRowV1) : ReportView :=
  if rows.isEmpty then .noData else .table rows

/-! ## TimeRangeResolver: week quick ranges

The week branches only shift `today` by whole days, so they are embedded
on day numbers (days since 1970-01-01). `today` is the current local
date; in app.py the resulting `end` additionally gets the time of day
23:59:59.999999 (line 378). -/

/-- src/app.py lines 361-364, `This week`:
`start = today - timedelta(days=today.weekday() + 1 if today.weekday() < 6 else 0)`,
`end = start + timedelta(days=6)`. -/
def thisWeekV1 (today : ℤ) : ℤ × ℤ :=
  let s := today - (if weekdayMon today < 6 then weekdayMon today + 1 else 0)
  (s, s + 6)

/-- src/app.py lines 365-368, `Last week`:
`end = today - timedelta(days=today.weekday() + 2 if today.weekday() < 6 else 1)`,
`start = end - timedelta(days=6)`. -/
def lastWeekV1 (today : ℤ) : ℤ × ℤ :=
  let e := today - (if weekdayMon today < 6 then weekdayMon today + 2 else 1)
  (e - 6, e)

/-- app_v3.py lines 400-402 and app_v2.py lines 185-187, `This week`:
`start = today - timedelta(days=today.weekday())`, `end = today`. -/
def thisWeekV3 (today : ℤ) : ℤ × ℤ :=
  (today - weekdayMon today, today)

/-- app_v3.py lines 403-405 and app_v2.py lines 188-190, `Last week`:
`end = today - timedelta(days=today.weekday() + 1)`,
`start = end - timedelta(days=6)`. -/
def lastWeekV3 (today : ℤ) : ℤ × ℤ :=
  let e := today - (weekdayMon today + 1)
  (e - 6, e)

/-- The Sunday on or before a given day, the week start named by the
spec (weeks run Sunday through Saturday). -/
def sundayOnOrBefore (d : ℤ) : ℤ := d - (weekdayMon d + 1) % 7

/-! ## TimeRangeResolver: month quick ranges

The month branches use calendar-field arithmetic (`replace(day=1)`,
± one day), embedded on explicit civil dates. -/

/-- A civil date as manipulated by `datetime.date`. -/
structure Date where
  y : ℤ
  m : ℤ
  d : ℤ
deriving DecidableEq, Repr

/-- Gregorian leap-year test. -/
def isLeap (y : ℤ) : Bool := (y % 4 = 0 && y % 100 ≠ 0) || y % 400 = 0

/-- Number of days of a month. -/
def daysInMonth (y m : ℤ) : ℤ :=
  if m = 2 then (if isLeap y then 29 else 28)
  else if m = 4 ∨ m = 6 ∨ m = 9 ∨ m = 11 then 30
  else 31

/-- `today + timedelta(days=1)` on calendar fields. -/
def nextDay (t : Date) : Date :=
  if t.d < daysInMonth t.y t.m then ⟨t.y, t.m, t.d + 1⟩
  else if t.m < 12 then ⟨t.y, t.m + 1, 1⟩
  else ⟨t.y + 1, 1, 1⟩

/-- `d - timedelta(days=1)` on calendar fields. -/
def prevDay (t : Date) : Date :=
  if 1 < t.d then ⟨t.y, t.m, t.d - 1⟩
  else if 1 < t.m then ⟨t.y, t.m - 1, daysInMonth t.y (t.m - 1)⟩
  else ⟨t.y - 1, 12, 31⟩

/-- src/app.py lines 369-371, `This month`:
`start = today.replace(day=1)`, `end = today + timedelta(days=1)`
(the end then gets time of day 23:59:59.999999, line 378). -/
def thisMonthV1 (today : Date) : Date × Date :=
  (⟨today.y, today.m, 1⟩, nextDay today)

/-- src/app.py lines 372-376 (and identically app_v3.py lines 409-413),
`Last month`: `first_this = today.replace(day=1)`,
`last_month_end = first_this - timedelta(days=1)`,
`start = last_month_end.replace(day=1)`, `end = last_month_end`. -/
def lastMonthV1 (today : Date) : Date × Date :=
  let lastMonthEnd := prevDay ⟨today.y, today.m, 1⟩
  (⟨lastMonthEnd.y, lastMonthEnd.m, 1⟩, lastMonthEnd)

/-- app_v3.py lines 406-408 and app_v2.py lines 191-193, `This month`:
`start = today.replace(day=1)`, `end = today`. -/
def thisMonthV3 (today : Date) : Date × Date :=
  (⟨today.y, today.m, 1⟩, today)

/-- Year of the month preceding the month of `t`. -/
def prevMonthY (t : Date) : ℤ := if t.m = 1 then t.y - 1 else t.y

/-- The month preceding the month of `t`. -/
def prevMonthM (t : Date) : ℤ := if t.m = 1 then 12 else t.m - 1

/-! ## Money shape -/

/-- A money value that is a whole number of its unit (no fractional
part), the shape the spec asserts for every intermediate value. -/
def wholeMinor (x : ℚ) : Prop := ∃ n : ℤ, x = (n : ℚ)

/-! ## app_v2 login flow (src/app_v2.py lines 41-53) -/

/-- A `users` table record as selected by the app_v2 login query. -/
structure UserRec where
  id : String
  username : String
  password_hash : String
  role : String
  is_active : Bool
deriving DecidableEq, Repr

/-- Outcome of one run of the app_v2 login button handler: the
session-state `user`, the persisted `user_id` cookie, and whether the
invalid-credentials error was displayed. -/
structure LoginOutcome where
  sessionUser : Option UserRec
  cookieUserId : Option String
  errorShown : Bool
deriving DecidableEq, Repr

/-- src/app_v2.py lines 41-53. The row is looked up by username only
(`maybe_single()`); when a row exists, a failed
`bcrypt_hasher.verify(password, hash)` merely calls `st.error` and the
handler still stores the user in session state and persists the cookie.
`verify` abstracts `bcrypt_hasher.verify`. -/
def loginV2 (db : List UserRec) (verify : String → String → Bool)
    (username password : String) : LoginOutcome :=
  match db.find? (fun u => decide (u.username = username)) with
  | some user =>
    { sessionUser := some user
      cookieUserId := some user.id
      errorShown := !verify password user.password_hash }
  | none =>
    { sessionUser := none, cookieUserId := none, errorShown := true }

/-! ## Field accessors used by concrete statements

Each accessor returns the field of the computed row when the row
computation succeeds and a default when it raises. -/

/-- `Total` of an app.py row, 0 when the computation raises. -/
def totalOfV1 (r : RawV1) : ℚ :=
  match computeRowV1 r with | some c => c.total | none => 0

/-- `Total Service Amount` of an app.py row. -/
def tsaOfV1 (r : RawV1) : ℚ :=
  match computeRowV1 r with | some c => c.totalServiceAmount | none => 0

/-- `Date & Time` cell of an app.py row. -/
def dtOfV1 (r : RawV1) : TimeDisplay :=
  match computeRowV1 r with | some c => c.dateTime | none => .instant 0

/-- `Total` of an app_v2/app_v3 row. -/
def totalOfV2 (r : RawV2) : ℚ :=
  match computeRowV2 r with | some c => c.total | none => 0

/-- `Service Amount` of an app_v2/app_v3 row. -/
def saOfV2 (r : RawV2) : ℚ :=
  match computeRowV2 r with | some c => c.serviceAmount | none => 0

/-- `Tip` cell of an app_v2/app_v3 row. -/
def tipOfV2 (r : RawV2) : ℚ :=
  match computeRowV2 r with | some c => c.tip | none => 0

/-- `Inactive` cell of an app_v2/app_v3 row. -/
def inactiveOfV2 (r : RawV2) : Bool :=
  match computeRowV2 r with | some c => c.inactive | none => false

/-- `Date & Time` cell of an app_v2/app_v3 row. -/
def dtOfV2 (r : RawV2) : TimeDisplay :=
  match computeRowV2 r with | some c => c.dateTime | none => .formatted ""

/-- `service_percentage` of the row's joined user account. -/
def pctOfV2 (r : RawV2) : ℚ :=
  match r.users with | some u => u.service_percentage | none => 0

/-! ## Concrete fixtures for counterexamples and witnesses -/

/-- A single-entry ledger: user `a` at 100 percent, one entry with
quantity 2, per-unit amount 100 and no tip. -/
def ledgerC1 : List RawV1 :=
  [⟨"u1", 2, 0, 100, 0, "Cash", some ⟨"a", 100⟩⟩]

/-- The flat view app.py computes for `ledgerC1` with no filters. -/
def rowsC1 : List ComputedRowV1 :=
  (fetch_service_logs ledgerC1 none none none).getD []

/-- A legacy-schema row for a user whose commission percentage is 50:
catalog price 2000 cents, quantity 1, no tip. -/
def rawC2 : RawV2 :=
  ⟨"u2", 1, 0, 0, some ⟨"b", 50⟩, some ⟨"cut", 2000, true⟩⟩

/-- An app.py row whose earning is half an odd amount: per-unit amount
25, quantity 1, percentage 50, no tip. -/
def rawC6 : RawV1 :=
  ⟨"u3", 1, 0, 25, 0, "Credit", some ⟨"c", 50⟩⟩

/-- A legacy-schema row stored at UTC instant 1700000000. -/
def rawC7 : RawV2 :=
  ⟨"u4", 1, 0, 1700000000, some ⟨"d", 100⟩, some ⟨"svc", 1000, true⟩⟩

/-- An app.py row stored at UTC instant 1700000000. -/
def rawC7V1 : RawV1 :=
  ⟨"u4", 1, 5, 40, 1700000000, "Credit", some ⟨"d", 100⟩⟩

/-- A legacy-schema row whose `services` join is missing (deleted
catalog item): subscripting it raises in Python. -/
def rawC8Missing : RawV2 :=
  ⟨"u5", 1, 0, 0, some ⟨"e", 100⟩, none⟩

/-- A legacy-schema row joined to a deactivated catalog item. -/
def rawC8Inactive : RawV2 :=
  ⟨"u6", 2, 300, 0, some ⟨"f", 100⟩, some ⟨"old", 1500, false⟩⟩

/-- A two-user ledger for the C1 witness: `a` at 50 percent with two
entries, `b` at 100 percent with one. -/
def ledgerW : List RawV1 :=
  [⟨"u1", 1, 5, 40, 10, "Credit", some ⟨"a", 50⟩⟩,
   ⟨"u1", 1, 2, 30, 5, "Cash", some ⟨"a", 50⟩⟩,
   ⟨"u9", 1, 0, 20, 7, "Cash", some ⟨"b", 100⟩⟩]

/-- The flat view app.py computes for `ledgerW` with no filters. -/
def rowsW : List ComputedRowV1 :=
  (fetch_service_logs ledgerW none none none).getD []

/-- An app.py raw row with integer-valued stored fields: per-unit amount
`a`, quantity `q`, tip `t`, for a user at percentage `p`. -/
def mkRawV1 (a : ℤ) (q : ℕ) (p t : ℤ) : RawV1 :=
  ⟨"u", q, (t : ℚ), (a : ℚ), 0, "Cash", some ⟨"x", (p : ℚ)⟩⟩

/-- The single flat-view row app.py computes for `ledgerC1`. -/
def rowC1 : ComputedRowV1 :=
  ⟨.formatted (strftimeCentral 0), "a", 2, 100, 100, 200, 0, "Cash", 200⟩

/-! ## Helper lemmas -/

/-- Every row the app.py loop emits satisfies the per-row earning
equations of lines 76-88. -/
theorem computeRowV1_spec {a : RawV1} {r : ComputedRowV1}
    (h : computeRowV1 a = some r) :
    r.total = r.totalServiceAmount * (r.userPercent / 100) + r.tip ∧
    r.totalServiceAmount = r.serviceAmount * (r.qty : ℚ) := by
  cases hu : a.users with
  | none => simp [computeRowV1, hu] at h
  | some u =>
    simp only [computeRowV1, hu] at h
    have h2 := Option.some.inj h
    subst h2
    exact ⟨rfl, rfl⟩

/-- Each emitted row of the whole loop comes from some raw row. -/
theorem computeRowsV1_mem :
    ∀ {l : List RawV1} {rows : List ComputedRowV1},
    computeRowsV1 l = some rows → ∀ {r : ComputedRowV1}, r ∈ rows →
    ∃ a, a ∈ l ∧ computeRowV1 a = some r := by
  intro l
  induction l with
  | nil =>
    intro rows h r hr
    simp only [computeRowsV1, Option.some.injEq] at h
    subst h
    simp at hr
  | cons x xs ih =>
    intro rows h r hr
    cases hx : computeRowV1 x with
    | none => simp [computeRowsV1, hx] at h
    | some row =>
      cases hxs : computeRowsV1 xs with
      | none => simp [computeRowsV1, hx, hxs] at h
      | some rest =>
        simp only [computeRowsV1, hx, hxs, Option.some.injEq] at h
        subst h
        rcases List.mem_cons.mp hr with hr | hr
        · exact ⟨x, List.mem_cons_self x xs, hr ▸ hx⟩
        · obtain ⟨a, hal, har⟩ := ih hxs hr
          exact ⟨a, List.mem_cons_of_mem x hal, har⟩

/-- Every row of a successful `fetch_service_logs` run satisfies the
per-row earning equations. -/
theorem fetch_rows_spec {ledger : List RawV1} {startUtc endUtc : Option ℤ}
    {uid : Option String} {rows : List ComputedRowV1}
    (hf : fetch_service_logs ledger startUtc endUtc uid = some rows) :
    ∀ r ∈ rows, r.total = r.totalServiceAmount * (r.userPercent / 100) + r.tip ∧
      r.totalServiceAmount = r.serviceAmount * (r.qty : ℚ) := by
  intro r hr
  simp only [fetch_service_logs] at hf
  split at hf
  · obtain rfl : ([] : List ComputedRowV1) = rows := Option.some.inj hf
    simp at hr
  · obtain ⟨a, _, ha⟩ := computeRowsV1_mem hf hr
    exact computeRowV1_spec ha

/-- Summing the `Total` column over any list whose rows share percentage
`p` and satisfy the per-row equation factors through the summed
`Total Service Amount` and `Tip` columns. -/
theorem sum_group_identity (p : ℚ) :
    ∀ l : List ComputedRowV1,
    (∀ r ∈ l, r.userPercent = p ∧
      r.total = r.totalServiceAmount * (r.userPercent / 100) + r.tip) →
    sumTotal l = sumTotalServiceAmount l * (p / 100) + sumTip l := by
  intro l
  induction l with
  | nil => intro _; simp [sumTotal, sumTotalServiceAmount, sumTip]
  | cons x xs ih =>
    intro h
    obtain ⟨hp, ht⟩ := h x (List.mem_cons_self x xs)
    have hxs := ih fun r hr => h r (List.mem_cons_of_mem x hr)
    simp only [sumTotal, sumTotalServiceAmount, sumTip, List.map_cons,
      List.sum_cons] at hxs ⊢
    rw [ht, hp, hxs]
    ring

/-- When every row has quantity 1, the summed per-unit `Service Amount`
column coincides with the summed `Total Service Amount` column. -/
theorem sum_sa_eq_tsa :
    ∀ l : List ComputedRowV1,
    (∀ r ∈ l, r.qty = 1 ∧ r.totalServiceAmount = r.serviceAmount * (r.qty : ℚ)) →
    sumServiceAmount l = sumTotalServiceAmount l := by
  intro l
  induction l with
  | nil => intro _; simp [sumServiceAmount, sumTotalServiceAmount]
  | cons x xs ih =>
    intro h
    obtain ⟨hq, ht⟩ := h x (List.mem_cons_self x xs)
    have hxs := ih fun r hr => h r (List.mem_cons_of_mem x hr)
    simp only [sumServiceAmount, sumTotalServiceAmount, List.map_cons,
      List.sum_cons] at hxs ⊢
    rw [ht, hq, hxs]
    norm_num

/-- Membership in a `groupUserPct` group. -/
theorem mem_groupUserPct {rows : List ComputedRowV1} {u : String} {p : ℚ}
    {r : ComputedRowV1} (h : r ∈ groupUserPct rows u p) :
    r ∈ rows ∧ r.user = u ∧ r.userPercent = p := by
  obtain ⟨hm, hc⟩ := List.mem_filter.mp h
  have := of_decide_eq_true hc
  exact ⟨hm, this.1, this.2⟩

/-- The app_v2/app_v3 row loop neither drops nor fails on rows whose
joins are all present. -/
theorem computeRowsV2_all_some :
    ∀ l : List RawV2,
    (∀ x ∈ l, x.users.isSome ∧ x.services.isSome) →
    ∃ rows, computeRowsV2 l = some rows ∧ rows.length = l.length := by
  intro l
  induction l with
  | nil => intro _; exact ⟨[], rfl, rfl⟩
  | cons x xs ih =>
    intro h
    obtain ⟨hu, hs⟩ := h x (List.mem_cons_self x xs)
    obtain ⟨u, hu⟩ := Option.isSome_iff_exists.mp hu
    obtain ⟨s, hs⟩ := Option.isSome_iff_exists.mp hs
    obtain ⟨rows, hrows, hlen⟩ := ih fun y hy => h y (List.mem_cons_of_mem x hy)
    cases hr : computeRowV2 x with
    | none => simp [computeRowV2, hu, hs] at hr
    | some row =>
      refine ⟨row :: rows, ?_, by simp [hlen]⟩
      simp [computeRowsV2, hr, hrows]

/-- Concrete evaluation of the app.py pipeline on `ledgerC1`. -/
theorem fetchC1_eval :
    fetch_service_logs ledgerC1 none none none = some [rowC1] := by
  norm_num [fetch_service_logs, ledgerC1, rowC1, matchesQueryV1, matchesRange,
    orderByServedAt, insertByTime, computeRowsV1, computeRowV1]

/-- The `rowsC1` fixture is that single row. -/
theorem rowsC1_eval : rowsC1 = [rowC1] := by
  simp [rowsC1, fetchC1_eval]

/-! ## Claim theorems -/

/-- C1 counterexample. The claim asserts that the report summaries —
in particular `Overall Totals per User` — equal the sum of the flat-view
`Total` column over the rows with the same key. On a single entry with
quantity 2, per-unit amount 100, tip 0 and percentage 100, the flat-view
`Total` sums to 200 while the `Overall Totals per User` cell, which
applies the percentage to the summed per-unit `Service Amount` column,
is 100. -/
theorem C1_counterexample :
    overallUserTotalV1 rowsC1 "a" 100 = 100 ∧
    sumTotal (groupUserPct rowsC1 "a" 100) = 200 ∧
    overallUserTotalV1 rowsC1 "a" 100 ≠ sumTotal (groupUserPct rowsC1 "a" 100) := by
  rw [rowsC1_eval]
  norm_num [overallUserTotalV1, groupUserPct, sumServiceAmount, sumTip,
    sumTotal, rowC1]

/-- C1 (amended): for every report run, within any flat-view group that
fixes a user and percentage (and optionally any further key such as the
payment type), summing the per-row `Total` column equals applying
`summed_total_service_amount × (pct/100) + summed_tip` — the group sum
of the `Total Service Amount` column, not of the per-unit `Service
Amount` column. The code's `Overall Totals per User` cell, which uses
the per-unit column, equals the flat-view sum exactly when every row of
the group has quantity 1. -/
theorem C1_amended_group_sums
    (ledger : List RawV1) (startUtc endUtc : Option ℤ) (uid : Option String)
    (rows : List ComputedRowV1)
    (hf : fetch_service_logs ledger startUtc endUtc uid = some rows)
    (φ : ComputedRowV1 → Bool) (u : String) (p : ℚ) :
    sumTotal ((groupUserPct rows u p).filter φ) =
      sumTotalServiceAmount ((groupUserPct rows u p).filter φ) * (p / 100) +
        sumTip ((groupUserPct rows u p).filter φ) ∧
    ((∀ r ∈ groupUserPct rows u p, r.qty = 1) →
      overallUserTotalV1 rows u p = sumTotal (groupUserPct rows u p)) := by
  have hspec := fetch_rows_spec hf
  constructor
  · apply sum_group_identity
    intro r hr
    have hg := mem_groupUserPct (List.mem_of_mem_filter hr)
    exact ⟨hg.2.2, (hspec r hg.1).1⟩
  · intro hq
    have hmem : ∀ r ∈ groupUserPct rows u p, r.userPercent = p ∧
        r.total = r.totalServiceAmount * (r.userPercent / 100) + r.tip := by
      intro r hr
      have hg := mem_groupUserPct hr
      exact ⟨hg.2.2, (hspec r hg.1).1⟩
    have hsa : sumServiceAmount (groupUserPct rows u p) =
        sumTotalServiceAmount (groupUserPct rows u p) := by
      apply sum_sa_eq_tsa
      intro r hr
      exact ⟨hq r hr, (hspec r (mem_groupUserPct hr).1).2⟩
    rw [overallUserTotalV1, hsa, sum_group_identity p _ hmem]

/-- C1 witness: the amended statement instantiated on the concrete
single-entry ledger `ledgerC1` at key (`a`, 100). -/
theorem C1_witness :
    sumTotal ((groupUserPct rowsC1 "a" 100).filter (fun _ => true)) =
      sumTotalServiceAmount ((groupUserPct rowsC1 "a" 100).filter (fun _ => true)) *
          ((100 : ℚ) / 100) +
        sumTip ((groupUserPct rowsC1 "a" 100).filter (fun _ => true)) ∧
    ((∀ r ∈ groupUserPct rowsC1 "a" 100, r.qty = 1) →
      overallUserTotalV1 rowsC1 "a" 100 = sumTotal (groupUserPct rowsC1 "a" 100)) :=
  C1_amended_group_sums ledgerC1 none none none rowsC1
    (by rw [fetchC1_eval, rowsC1_eval]) (fun _ => true) "a" 100

/-- C2 counterexample. The claim asserts that in every report variant's
flat view `Total = amount × (percentage/100) + tip`. In the app_v2 (and
identical app_v3) Reports computation, a catalog entry of price 2000
cents, quantity 1, tip 0 for a user whose `service_percentage` is 50
yields `Total = 20`, not `20 × 50/100 + 0 = 10`: those variants never
apply the commission percentage. -/
theorem C2_counterexample :
    totalOfV2 rawC2 = 20 ∧ pctOfV2 rawC2 = 50 ∧ saOfV2 rawC2 = 20 ∧
    totalOfV2 rawC2 ≠ saOfV2 rawC2 * (pctOfV2 rawC2 / 100) + tipOfV2 rawC2 := by
  norm_num [totalOfV2, saOfV2, tipOfV2, pctOfV2, computeRowV2, rawC2]

/-- C2 (amended): the amount derivation holds as claimed in both
schemas — `amount = entry.amount × qty` in app.py (quantity scales the
stored amount) and `amount = (catalog_price/100) × qty` in
app_v2/app_v3 — and app.py computes
`Total = amount × (percentage/100) + tip`; but the app_v2/app_v3 report
variants compute `Total = amount + tip/100` without any percentage
factor. -/
theorem C2_amended_per_variant
    (a : RawV1) (u : UserJoin) (ha : a.users = some u)
    (b : RawV2) (v : UserJoin) (s : ServiceJoin)
    (hv : b.users = some v) (hs : b.services = some s) :
    tsaOfV1 a = a.amount_cents * (a.qty : ℚ) ∧
    totalOfV1 a = a.amount_cents * (a.qty : ℚ) * (u.service_percentage / 100) +
      a.tip_cents ∧
    saOfV2 b = (s.price_cents : ℚ) / 100 * (b.qty : ℚ) ∧
    totalOfV2 b = (s.price_cents : ℚ) / 100 * (b.qty : ℚ) +
      (b.tip_cents : ℚ) / 100 := by
  refine ⟨?_, ?_, ?_, ?_⟩ <;>
    simp [tsaOfV1, totalOfV1, saOfV2, totalOfV2, computeRowV1, computeRowV2,
      ha, hv, hs]

/-- C2 witness: the amended formulas instantiated on concrete rows of
both schemas. -/
theorem C2_witness :
    tsaOfV1 rawC7V1 = rawC7V1.amount_cents * (rawC7V1.qty : ℚ) ∧
    totalOfV1 rawC7V1 = rawC7V1.amount_cents * (rawC7V1.qty : ℚ) * ((100 : ℚ) / 100) +
      rawC7V1.tip_cents ∧
    saOfV2 rawC2 = ((2000 : ℤ) : ℚ) / 100 * (rawC2.qty : ℚ) ∧
    totalOfV2 rawC2 = ((2000 : ℤ) : ℚ) / 100 * (rawC2.qty : ℚ) +
      (rawC2.tip_cents : ℚ) / 100 :=
  C2_amended_per_variant rawC7V1 ⟨"d", 100⟩ rfl rawC2 ⟨"b", 50⟩ ⟨"cut", 2000, true⟩
    rfl rfl

/-- C3 counterexample. The claim asserts half-open semantics in which an
entry whose timestamp equals the resolved interval's end is excluded;
but the query uses `.lte("served_at", end)`, so with the interval
`[0, 5]` an entry at instant 5 matches the filter. -/
theorem C3_counterexample : matchesRange (some 0) (some 5) 5 = true := by decide

/-- C3 (amended): the resolved interval is closed on both sides: the
row filter `.gte(start)` + `.lte(end)` admits exactly the instants with
`start ≤ t ∧ t ≤ end`, so an entry at the start instant is included (as
claimed) and an entry at the end instant is also included (contrary to
the claimed half-open exclusion). -/
theorem C3_amended_closed_interval (s e t : ℤ) :
    matchesRange (some s) (some e) t = true ↔ s ≤ t ∧ t ≤ e := by
  simp [matchesRange]

/-- C4 counterexample. The claim asserts Sunday–Saturday weeks in every
report variant. Day 6 (1970-01-07) is a Wednesday; the app_v3 (and
identical app_v2) resolver starts `This week` on day 4, a Monday, not
on the preceding Sunday (day 3), and ends it on `today` itself rather
than the following Saturday. -/
theorem C4_counterexample :
    weekdayMon 6 = 2 ∧
    (thisWeekV3 6).1 ≠ sundayOnOrBefore 6 ∧
    (thisWeekV3 6).2 ≠ sundayOnOrBefore 6 + 6 := by decide

/-- C4 (amended): only src/app.py resolves weeks as Sunday–Saturday:
its `This week` starts on the Sunday on or before `now` and ends six
days later on a Saturday, and its `Last week` is the seven days
immediately preceding. The app_v2/app_v3 resolvers instead start
`This week` on the Monday on or before `now` and end it on `now`
itself, with `Last week` the Monday–Sunday span preceding that
Monday. -/
theorem C4_amended_week_rules (t : ℤ) :
    (thisWeekV1 t).1 = sundayOnOrBefore t ∧
    weekdayMon (thisWeekV1 t).1 = 6 ∧
    (thisWeekV1 t).1 ≤ t ∧ t - (thisWeekV1 t).1 < 7 ∧
    (thisWeekV1 t).2 = (thisWeekV1 t).1 + 6 ∧
    weekdayMon (thisWeekV1 t).2 = 5 ∧
    (lastWeekV1 t).1 = sundayOnOrBefore t - 7 ∧
    (lastWeekV1 t).2 = sundayOnOrBefore t - 1 ∧
    (thisWeekV3 t).1 = t - weekdayMon t ∧
    weekdayMon (thisWeekV3 t).1 = 0 ∧
    (thisWeekV3 t).2 = t ∧
    (lastWeekV3 t).1 = (thisWeekV3 t).1 - 7 ∧
    (lastWeekV3 t).2 = (thisWeekV3 t).1 - 1 := by
  refine ⟨?_, ?_, ?_, ?_, ?_, ?_, ?_, ?_, ?_, ?_, ?_, ?_, ?_⟩ <;>
    simp only [thisWeekV1, lastWeekV1, thisWeekV3, lastWeekV3, sundayOnOrBefore,
      weekdayMon] <;>
    (try split_ifs) <;> omega

/-- C5 counterexample. The claim asserts that `This month` runs through
the end of `now`'s own day without extending past it; on 2024-03-15 the
app.py resolver sets the range end to 2024-03-16 (whose time of day is
then set to 23:59:59.999999), one full day past `now`'s day. -/
theorem C5_counterexample :
    (thisMonthV1 ⟨2024, 3, 15⟩).2 = (⟨2024, 3, 16⟩ : Date) ∧
    (thisMonthV1 ⟨2024, 3, 15⟩).2 ≠ (⟨2024, 3, 15⟩ : Date) := by decide

/-- C5 (amended): both month resolvers start `This month` on day 1 of
the current month, and `Last month` is the full previous calendar month
(its first through its last day) in app.py and app_v3 alike; but the
app.py `This month` ends on the day after `now` (at end-of-day), never
on `now`'s own day, while the app_v3/app_v2 resolver ends it on `now`'s
date as the claim describes. -/
theorem C5_amended_month_rules (t : Date) (h1 : 1 ≤ t.m) (h2 : t.m ≤ 12) :
    (thisMonthV1 t).1 = ⟨t.y, t.m, 1⟩ ∧
    (thisMonthV1 t).2 = nextDay t ∧
    (thisMonthV1 t).2 ≠ t ∧
    (thisMonthV3 t).1 = ⟨t.y, t.m, 1⟩ ∧
    (thisMonthV3 t).2 = t ∧
    (lastMonthV1 t).1 = ⟨prevMonthY t, prevMonthM t, 1⟩ ∧
    (lastMonthV1 t).2 =
      ⟨prevMonthY t, prevMonthM t, daysInMonth (prevMonthY t) (prevMonthM t)⟩ := by
  obtain ⟨y, m, d⟩ := t
  simp only at h1 h2
  refine ⟨rfl, rfl, ?_, rfl, rfl, ?_, ?_⟩
  · simp only [thisMonthV1, nextDay]
    split_ifs <;> simp only [ne_eq, Date.mk.injEq, not_and] <;> intros <;> omega
  · simp only [lastMonthV1, prevDay, prevMonthY, prevMonthM]
    split_ifs with ha hb hc <;> simp_all [Date.mk.injEq]
    omega
  · simp only [lastMonthV1, prevDay, prevMonthY, prevMonthM]
    split_ifs with ha hb hc <;> simp_all [Date.mk.injEq]
    · norm_num [daysInMonth]
    · omega

/-- C5 witness: the amended month rules instantiated at
`now = 2024-03-15`. -/
theorem C5_witness :
    (thisMonthV1 ⟨2024, 3, 15⟩).1 = (⟨2024, 3, 1⟩ : Date) ∧
    (thisMonthV1 ⟨2024, 3, 15⟩).2 = nextDay ⟨2024, 3, 15⟩ ∧
    (thisMonthV1 ⟨2024, 3, 15⟩).2 ≠ (⟨2024, 3, 15⟩ : Date) ∧
    (thisMonthV3 ⟨2024, 3, 15⟩).1 = (⟨2024, 3, 1⟩ : Date) ∧
    (thisMonthV3 ⟨2024, 3, 15⟩).2 = (⟨2024, 3, 15⟩ : Date) ∧
    (lastMonthV1 ⟨2024, 3, 15⟩).1 = (⟨2024, 2, 1⟩ : Date) ∧
    (lastMonthV1 ⟨2024, 3, 15⟩).2 =
      (⟨2024, 2, daysInMonth 2024 2⟩ : Date) :=
  C5_amended_month_rules ⟨2024, 3, 15⟩ (by norm_num) (by norm_num)

/-- C6 counterexample. The claim asserts that every intermediate money
value of the earnings pipeline is an exact integer amount of minor
units. An app.py row with stored amount 25, quantity 1, tip 0 for a
user at 50 percent has flat-view `Total = 25 × (50/100) = 12.5`, which
is not a whole number of the stored unit. -/
theorem C6_counterexample :
    totalOfV1 rawC6 = 25 / 2 ∧ ¬ wholeMinor (totalOfV1 rawC6) := by
  have h : totalOfV1 rawC6 = 25 / 2 := by
    norm_num [totalOfV1, computeRowV1, rawC6]
  refine ⟨h, ?_⟩
  rw [h]
  rintro ⟨n, hn⟩
  have h2 : (25 : ℚ) = 2 * (n : ℚ) := by
    field_simp at hn
    linarith
  have h3 : (25 : ℤ) = 2 * n := by exact_mod_cast h2
  omega

/-- C6 (amended): the pipeline computes with exact (in the source,
floating-point) arithmetic on the stored values, not on integer minor
units: an app.py flat-view `Total` built from integer-valued stored
fields is a whole number of the stored unit exactly when 100 divides
`amount × qty × percentage`; otherwise the intermediate earning carries
a fractional part (and app_v2/app_v3 additionally convert cents to
major units per row, before any aggregation). -/
theorem C6_amended_integrality (a p t : ℤ) (q : ℕ) :
    wholeMinor (totalOfV1 (mkRawV1 a q p t)) ↔ (100 : ℤ) ∣ a * (q : ℤ) * p := by
  have hx : totalOfV1 (mkRawV1 a q p t) =
      ((a * (q : ℤ) * p : ℤ) : ℚ) / 100 + (t : ℚ) := by
    simp only [totalOfV1, computeRowV1, mkRawV1]
    push_cast
    ring
  rw [hx]
  constructor
  · rintro ⟨n, hn⟩
    refine ⟨n - t, ?_⟩
    have h100 : ((a * (q : ℤ) * p : ℤ) : ℚ) = ((100 * (n - t) : ℤ) : ℚ) := by
      push_cast
      field_simp at hn
      linarith
    exact_mod_cast h100
  · rintro ⟨c, hc⟩
    refine ⟨c + t, ?_⟩
    rw [hc]
    push_cast
    field_simp

/-- C7 counterexample. The claim asserts that every report variant's
`Date & Time` cell is the stored UTC instant converted to US/Central
and rendered with 12-hour meridiem formatting; the app_v2/app_v3
Reports row stores the instant parsed by `pd.to_datetime` with no
conversion and no formatting. -/
theorem C7_counterexample :
    dtOfV2 rawC7 = TimeDisplay.instant 1700000000 ∧
    dtOfV2 rawC7 ≠ TimeDisplay.formatted (strftimeCentral 1700000000) := by
  constructor
  · rfl
  · simp [dtOfV2, computeRowV2, rawC7]

/-- C7 (amended): only the app.py flat view renders the stored UTC
instant in the fixed zone US/Central with 12-hour meridiem formatting
(shown here at a CST instant, a CDT instant, and a midnight-hour
instant rendered as 12 AM); the app_v2/app_v3 flat views carry the
unconverted instant. The conversion is a function of the stored instant
alone — no client-zone input exists in the pipeline. -/
theorem C7_amended_central_display (r : RawV1) (u : UserJoin)
    (h : r.users = some u) :
    dtOfV1 r = TimeDisplay.formatted (strftimeCentral r.served_at) ∧
    strftimeCentral 1700000000 = "2023-11-14 04:13:20 PM" ∧
    strftimeCentral 1690000000 = "2023-07-21 11:26:40 PM" ∧
    strftimeCentral 1700029800 = "2023-11-15 12:30:00 AM" := by
  refine ⟨?_, by decide, by decide, by decide⟩
  simp [dtOfV1, computeRowV1, h]

/-- C7 witness: the app.py display rule instantiated on a concrete row
stored at UTC instant 1700000000. -/
theorem C7_witness :
    dtOfV1 rawC7V1 = TimeDisplay.formatted (strftimeCentral 1700000000) ∧
    strftimeCentral 1700000000 = "2023-11-14 04:13:20 PM" ∧
    strftimeCentral 1690000000 = "2023-07-21 11:26:40 PM" ∧
    strftimeCentral 1700029800 = "2023-11-15 12:30:00 AM" :=
  C7_amended_central_display rawC7V1 ⟨"d", 100⟩ rfl

/-- C8 counterexample. The claim asserts that a row whose join is
missing still yields a computed row carrying an orphan flag; in fact
the app_v2/app_v3 row computation subscripts the missing `services`
join and raises, so the row — and with it the whole report run —
fails instead of being flagged. -/
theorem C8_counterexample :
    computeRowV2 rawC8Missing = none ∧
    computeRowsV2 [rawC8Missing] = none := by
  exact ⟨rfl, rfl⟩

/-- C8 (amended): a row joined to a present-but-deactivated catalog
item is kept and flagged (`Inactive = not is_active`), and a report
whose rows all have their joins present computes one flat-view row per
raw row; but a missing (deleted) join makes the row computation fail
rather than produce a flagged row. -/
theorem C8_amended_inactive_flag (r : RawV2) (u : UserJoin) (s : ServiceJoin)
    (hu : r.users = some u) (hs : r.services = some s) :
    computeRowV2 r = some
      { dateTime := .instant r.served_at
        user := u.username
        service := s.name
        inactive := !s.is_active
        qty := r.qty
        serviceAmount := (s.price_cents : ℚ) / 100 * (r.qty : ℚ)
        tip := (r.tip_cents : ℚ) / 100
        total := (s.price_cents : ℚ) / 100 * (r.qty : ℚ) +
          (r.tip_cents : ℚ) / 100 } ∧
    ∀ l : List RawV2, (∀ x ∈ l, x.users.isSome ∧ x.services.isSome) →
      ∃ rows, computeRowsV2 l = some rows ∧ rows.length = l.length := by
  refine ⟨?_, computeRowsV2_all_some⟩
  simp [computeRowV2, hu, hs]

/-- C8 witness: a concrete row joined to a deactivated catalog item is
kept with its `Inactive` flag set. -/
theorem C8_witness :
    computeRowV2 rawC8Inactive = some
      { dateTime := .instant 0
        user := "f"
        service := "old"
        inactive := true
        qty := 2
        serviceAmount := ((1500 : ℤ) : ℚ) / 100 * ((2 : ℕ) : ℚ)
        tip := ((300 : ℤ) : ℚ) / 100
        total := ((1500 : ℤ) : ℚ) / 100 * ((2 : ℕ) : ℚ) +
          ((300 : ℤ) : ℚ) / 100 } :=
  (C8_amended_inactive_flag rawC8Inactive ⟨"f", 100⟩ ⟨"old", 1500, false⟩
    rfl rfl).1

/-- C9 (confirmed): when the resolved range is empty (end before
start), `fetch_service_logs` returns the empty list — not an error —
and the Reports tab's emptiness branch renders the distinct `no data`
view, which no populated row set (zero-summed or not) can produce. -/
theorem C9_empty_result (ledger : List RawV1) (uid : Option String)
    (s e : ℤ) (h : e < s) :
    fetch_service_logs ledger (some s) (some e) uid = some [] ∧
    renderReportV1 [] = ReportView.noData ∧
    ∀ (r : ComputedRowV1) (rs : List ComputedRowV1),
      renderReportV1 (r :: rs) ≠ ReportView.noData := by
  refine ⟨?_, rfl, ?_⟩
  · have hf : ledger.filter (matchesQueryV1 (some s) (some e) uid) = [] := by
      rw [List.filter_eq_nil_iff]
      intro a _
      simp only [matchesQueryV1, matchesRange, Bool.and_eq_true,
        decide_eq_true_eq]
      rintro ⟨⟨h1, h2⟩, -⟩
      omega
    simp [fetch_service_logs, hf, orderByServedAt]
  · intro r rs
    simp [renderReportV1]

/-- C9 witness: the empty-range behaviour on the concrete ledger
`ledgerC1` with the empty range from 1 to 0. -/
theorem C9_witness :
    fetch_service_logs ledgerC1 (some 1) (some 0) none = some [] ∧
    renderReportV1 [] = ReportView.noData ∧
    ∀ (r : ComputedRowV1) (rs : List ComputedRowV1),
      renderReportV1 (r :: rs) ≠ ReportView.noData :=
  C9_empty_result ledgerC1 none 1 0 (by norm_num)

/-- C10 (confirmed): in the app_v2 login handler, the session user that
gets established equals the username lookup result regardless of the
password, and two runs with the same existing username and different
passwords produce identical session state and cookie; a failed bcrypt
verification only controls whether the error message is shown. -/
theorem C10_password_independent (db : List UserRec)
    (verify : String → String → Bool) (username p1 p2 : String) :
    (loginV2 db verify username p1).sessionUser =
      db.find? (fun u => decide (u.username = username)) ∧
    (loginV2 db verify username p1).sessionUser =
      (loginV2 db verify username p2).sessionUser ∧
    (loginV2 db verify username p1).cookieUserId =
      (loginV2 db verify username p2).cookieUserId := by
  unfold loginV2
  cases db.find? (fun u => decide (u.username = username)) <;> simp

end ServiceTracker
